import Mathlib

/-!
Shallow embedding of the `include-cargo-toml2` crate (`src/lib.rs`):
the index-path parser (`TomlIndex`'s `Parse` impl), the navigator
(`lookup`) and the TOML-value-to-Rust-literal translator (`translate`),
together with proofs of the specified properties.
-/

namespace IncludeCargoToml

/-- Carrier for Rust `f64` payloads. Float values are only carried through
the pipeline (stored in a TOML value, re-emitted as an `f64`-suffixed
literal token); they are never computed with, so we represent an `f64`
opaquely by its 64-bit pattern. -/
abbrev F64 := Nat

/-- Embedding of `toml::Value`: the recursive tagged union of TOML values
(variants `String`, `Integer`, `Float`, `Boolean`, `Datetime`, `Array`,
`Table` of the `toml` crate). A `Datetime` is represented by its canonical
string rendering (the code only ever uses `d.to_string()`); a `Table` is
an association list of key/value entries in iteration order, keys unique. -/
inductive Value where
  | string : String → Value
  | integer : Int → Value
  | float : F64 → Value
  | boolean : Bool → Value
  | datetime : String → Value
  | array : List Value → Value
  | table : List (String × Value) → Value
deriving Repr

/-- Embedding of the crate's helper `enum Index { Int(usize), Str(String) }`. -/
inductive Index where
  | int : Nat → Index
  | str : String → Index
deriving DecidableEq, Repr

/-- Embedding of `struct TomlIndex(Vec<Index>)`: the parsed navigation path. -/
abbrev TomlIndex := List Index

/-- Input token for the index-path parser: the macro argument stream as seen
by `syn`. String and integer literals carry their value (an integer literal's
base-10 digit value); `litFloat`, `litBool`, `litChar`, `litByteStr` are the
other literal kinds `Lit` can parse; `dot` is the separator token; `other`
stands for any non-literal, non-dot token. -/
inductive InTok where
  | litStr : String → InTok
  | litInt : Nat → InTok
  | litFloat : InTok
  | litBool : Bool → InTok
  | litChar : InTok
  | litByteStr : InTok
  | dot : InTok
  | other : InTok
deriving DecidableEq, Repr

/-- The failure outcomes of `TomlIndex`'s `Parse` impl. Two are returned
`SynError`s: `SynError::new(span, "Unsupported literal")` for a literal that
is neither a string nor an integer, and
`SynError::new(span, format!("Cannot parse index item: {}", e))` when parsing
a `Lit` itself fails (empty input, a dot where a literal is required, or a
non-literal token). The third models the panic
`.expect("Cannot parse literal integer")`: an integer literal whose base-10
digits do not fit `usize` aborts macro expansion before anything further is
consumed — a fatal abort, not a returned `SynError`. -/
inductive ParseErr where
  | unsupportedLiteral : ParseErr
  | cannotParseIndexItem : ParseErr
  | cannotParseLiteralInteger : ParseErr
deriving DecidableEq, Repr

/-- `usize::MAX` on the 64-bit hosts the crate targets: the bound enforced by
`lit_int.base10_digits().parse::<usize>()` at lib.rs:46-51. -/
def usizeMax : Nat := 2 ^ 64 - 1

/-- Embedding of `impl Parse for TomlIndex`: the loop
`while another_one { index.push(parse::<Lit>()? as Index); if parse::<Dot>() fails { stop } }`.
Each step parses one literal (string literal → `Index.str`, integer literal
whose digit value fits `usize` → `Index.int`, integer literal overflowing
`usize` → the fatal `Cannot parse literal integer` abort, any other literal
kind → `Unsupported literal` error, a non-literal or exhausted input →
`Cannot parse index item` error), then tries to consume a dot: on success the
loop continues, otherwise it stops, returning the accumulated steps together
with the unconsumed remainder of the stream. The overflow check sits inside
the push of the item, before the dot is attempted, exactly as in the source. -/
def parseSteps : List InTok → Except ParseErr (List Index × List InTok)
  | .litStr s :: .dot :: rest =>
      match parseSteps rest with
      | .ok (is, rem) => .ok (.str s :: is, rem)
      | .error e => .error e
  | .litInt n :: .dot :: rest =>
      if n ≤ usizeMax then
        match parseSteps rest with
        | .ok (is, rem) => .ok (.int n :: is, rem)
        | .error e => .error e
      else .error .cannotParseLiteralInteger
  | .litStr s :: rest => .ok ([.str s], rest)
  | .litInt n :: rest =>
      if n ≤ usizeMax then .ok ([.int n], rest)
      else .error .cannotParseLiteralInteger
  | .litFloat :: _ => .error .unsupportedLiteral
  | .litBool _ :: _ => .error .unsupportedLiteral
  | .litChar :: _ => .error .unsupportedLiteral
  | .litByteStr :: _ => .error .unsupportedLiteral
  | .dot :: _ => .error .cannotParseIndexItem
  | .other :: _ => .error .cannotParseIndexItem
  | [] => .error .cannotParseIndexItem

/-- `TomlIndex::parse`, the `Parse` impl entry point. -/
def TomlIndex.parse (input : List InTok) : Except ParseErr (TomlIndex × List InTok) :=
  parseSteps input

/-- Key lookup in a table's entry list (the `toml` crate's map lookup;
keys are unique within a table). -/
def lookupKey : List (String × Value) → String → Option Value
  | [], _ => none
  | (k, v) :: rest, s => if k = s then some v else lookupKey rest s

/-- Modelled from the spec: the neutral/empty placeholder value produced by a
missed navigation step. The spec (§4.3, §7) says a miss "yields a
neutral/empty placeholder value rather than a hard parse-time error" and that
the final output is then an empty literal; we concretise the placeholder as
the empty table, whose translation is the empty tuple literal. -/
def neutralValue : Value := Value.table []

/-- Modelled from the spec: the indexing operator `toml[index]` used by
`lookup`. The operator itself lives in the external `toml` crate (its `Index`
impls for `usize` and `String`), not under `src/`; per the spec (§4.3):
a `KeyIndex(s)` step on a table selects the value at key `s`, an
`IntegerIndex(n)` step on an array selects the element at position `n`, and
"looking up a key in a non-table, or a missing key" and "out-of-range or
non-array" indexing "yields a neutral/empty placeholder value rather than a
hard parse-time error". -/
def Value.getIdx : Value → Index → Value
  | .table t, .str s =>
      match lookupKey t s with
      | some v => v
      | none => neutralValue
  | _, .str _ => neutralValue
  | .array a, .int n =>
      match a[n]? with
      | some v => v
      | none => neutralValue
  | _, .int _ => neutralValue

/-- Embedding of `fn lookup(index: TomlIndex, mut toml: Value) -> Value`:
`for item in index.0 { match item { Int(i) => toml = toml[i].clone(),
Str(s) => toml = toml[s].clone() } } toml`. -/
def lookup (index : TomlIndex) (toml : Value) : Value :=
  index.foldl
    (fun t item =>
      match item with
      | .int n => t.getIdx (.int n)
      | .str s => t.getIdx (.str s))
    toml

/-- Literal tokens that `translate` emits: `Literal::string`,
`Literal::i64_suffixed`, `Literal::f64_suffixed`, `LitBool`. -/
inductive LitTok where
  | str : String → LitTok
  | i64 : Int → LitTok
  | f64 : F64 → LitTok
  | bool : Bool → LitTok
deriving DecidableEq, Repr

/-- A `proc_macro2` token tree as produced by `translate`: a literal token, a
comma punct, or a parenthesized group of tokens. -/
inductive Tok where
  | lit : LitTok → Tok
  | comma : Tok
  | group : List Tok → Tok
deriving Repr

mutual

/-- Embedding of `fn translate(input: Value) -> TokenStream2`. Every match arm
of the Rust function emits exactly one token tree (a single literal, or a
single parenthesized group), so the result is a `Tok`:
`String`/`Datetime` → string literal, `Integer` → `i64`-suffixed literal,
`Float` → `f64`-suffixed literal, `Boolean` → bool literal,
`Array` → `quote!((#ts))` where `ts` accumulates `quote!(#v,)` per element,
`Table` → `quote!((#ts))` where `ts` accumulates `quote!((#key, #v))` per
entry. -/
def translate : Value → Tok
  | .string s => .lit (.str s)
  | .integer i => .lit (.i64 i)
  | .float f => .lit (.f64 f)
  | .datetime d => .lit (.str d)
  | .boolean b => .lit (.bool b)
  | .array a => .group (translateArray a)
  | .table t => .group (translateTable t)

/-- The token stream accumulated by the `Value::Array` arm of `translate`:
for each element `value` in order, `ts.extend(quote!(#v,))` appends the
translated element followed by a comma. -/
def translateArray : List Value → List Tok
  | [] => []
  | v :: rest => translate v :: .comma :: translateArray rest

/-- The token stream accumulated by the `Value::Table` arm of `translate`:
for each entry `(key, value)` in order, `ts.extend(quote!((#key, #v)))`
appends one parenthesized `(key-string-literal, comma, translated-value)`
group — with no separating token between consecutive pair groups. -/
def translateTable : List (String × Value) → List Tok
  | [] => []
  | (k, v) :: rest => .group [.lit (.str k), .comma, translate v] :: translateTable rest

end

/-! Specification-side decoders and classifiers, used to state the claims
against the embedded functions. -/

/-- Decoder for a tuple-like token list: a sequence of elements, each a single
token followed by a comma (Rust tuple syntax with trailing commas). Returns
the list of element tokens, or `none` when the token list is not of that
shape. Defined independently of `translate`. -/
def tupleElems : List Tok → Option (List Tok)
  | [] => some []
  | t :: .comma :: rest => (tupleElems rest).map (fun es => t :: es)
  | _ => none

/-- The literal token denoting one navigation step: a string literal for a
key step, an integer literal for an integer-index step. -/
def itemTok : Index → InTok
  | .int n => .litInt n
  | .str s => .litStr s

/-- The token rendering of a dotted chain of navigation items, each followed
by its separating dot: the well-formed prefixes after whose consumption the
parser's loop is again at a literal position. -/
def renderChain : List Index → List InTok
  | [] => []
  | i :: rest => itemTok i :: InTok.dot :: renderChain rest

/-- A navigation item whose literal the parser can convert: a key, or an
integer index representable in `usize` (an overflowing integer literal
triggers the fatal `Cannot parse literal integer` abort instead). -/
def fitsUsize : Index → Bool
  | .int n => decide (n ≤ usizeMax)
  | .str _ => true

/-- An input token that is a literal of a kind the index-path parser rejects
(float, boolean, char, or byte-string literal). -/
def unsupportedLit : InTok → Bool
  | .litFloat => true
  | .litBool _ => true
  | .litChar => true
  | .litByteStr => true
  | _ => false

/-- A key-navigation step on `v` misses: `v` is not a table, or is a table
without key `s`. -/
def keyMiss (v : Value) (s : String) : Bool :=
  match v with
  | .table t => (lookupKey t s).isNone
  | _ => true

/-- An integer-navigation step on `v` misses: `v` is not an array, or `n` is
out of range. -/
def idxMiss (v : Value) (n : Nat) : Bool :=
  match v with
  | .array a => decide (a.length ≤ n)
  | _ => true

/-! Helper lemmas shared between the claim theorems. -/

/-- The table token stream is the per-entry pair groups, in order. -/
theorem translateTable_eq_map (t : List (String × Value)) :
    translateTable t
      = t.map (fun kv => Tok.group [Tok.lit (.str kv.1), Tok.comma, translate kv.2]) := by
  induction t with
  | nil => rfl
  | cons kv rest ih => cases kv; simp [translateTable, ih]

/-- The array token stream decodes as a tuple whose elements are the
translated array elements in order. -/
theorem tupleElems_translateArray (a : List Value) :
    tupleElems (translateArray a) = some (a.map translate) := by
  induction a with
  | nil => rfl
  | cons v rest ih => simp [translateArray, tupleElems, ih]

/-- A parse error is reached through any well-formed dotted prefix of
convertible items: if the parser fails on `toks`, it fails identically on
`renderChain steps ++ toks`. -/
theorem parseSteps_chain_append (steps : List Index)
    (hs : steps.all fitsUsize = true) (toks : List InTok)
    (e : ParseErr) (h : parseSteps toks = Except.error e) :
    parseSteps (renderChain steps ++ toks) = Except.error e := by
  induction steps with
  | nil => simpa using h
  | cons i rest ih =>
    rw [List.all_cons, Bool.and_eq_true] at hs
    cases i with
    | int n =>
        have hn : n ≤ usizeMax := by simpa [fitsUsize] using hs.1
        simp [renderChain, itemTok, parseSteps, hn, ih hs.2]
    | str s => simp [renderChain, itemTok, parseSteps, ih hs.2]

/-- An integer literal whose digit value exceeds `usize::MAX` aborts parsing
with the fatal `Cannot parse literal integer` outcome (lib.rs:46-51), before
any following token is consumed. -/
theorem parse_overflow_literal_aborts (n : Nat) (rest : List InTok)
    (hn : usizeMax < n) :
    TomlIndex.parse (InTok.litInt n :: rest)
      = Except.error ParseErr.cannotParseLiteralInteger := by
  have h' : ¬ n ≤ usizeMax := not_le.mpr hn
  unfold TomlIndex.parse
  rw [parseSteps.eq_def]
  split <;> simp_all

/-- Claim C2: for every table `T`, `translate(T)` is a single parenthesized
grouping literal containing exactly one `(key-string-literal, comma,
translated-value)` pair group per entry of `T`, in entry order, with each
value translated recursively and no other content: its token list has one
token per entry, and the i-th token is the pair group of the i-th entry. -/
theorem translate_table_pairs (t : List (String × Value)) :
    translate (Value.table t)
      = Tok.group
          (t.map (fun kv => Tok.group [Tok.lit (.str kv.1), Tok.comma, translate kv.2])) ∧
    (translateTable t).length = t.length ∧
    ∀ i : Nat,
      (translateTable t)[i]?
        = (t[i]?).map (fun kv => Tok.group [Tok.lit (.str kv.1), Tok.comma, translate kv.2]) := by
  refine ⟨?_, ?_, ?_⟩
  · simp [translate, translateTable_eq_map]
  · simp [translateTable_eq_map]
  · intro i
    simp [translateTable_eq_map]

/-- Claim C3: for every array `A`, `translate(A)` is a parenthesized
tuple-like literal (each element token followed by a comma) whose element
count equals the length of `A` and whose i-th element is `translate(A[i])`,
in original order. -/
theorem translate_array_tuple (a : List Value) :
    ∃ es, translate (Value.array a) = Tok.group (translateArray a) ∧
      tupleElems (translateArray a) = some es ∧
      es.length = a.length ∧
      ∀ i : Nat, es[i]? = (a[i]?).map translate := by
  refine ⟨a.map translate, rfl, tupleElems_translateArray a, by simp, ?_⟩
  intro i
  simp

/-- Claim C4: `translate` is total over the structured-value data model:
every variant (string, integer, float, boolean, timestamp, array, table) has
a defined mapping, the result is always a literal token or a parenthesized
group (a literal expression), and no case is unhandled. -/
theorem translate_total (v : Value) :
    ((∃ l, translate v = Tok.lit l) ∨ (∃ g, translate v = Tok.group g)) ∧
    ((∃ s, v = Value.string s ∧ translate v = Tok.lit (.str s)) ∨
     (∃ i, v = Value.integer i ∧ translate v = Tok.lit (.i64 i)) ∨
     (∃ f, v = Value.float f ∧ translate v = Tok.lit (.f64 f)) ∨
     (∃ b, v = Value.boolean b ∧ translate v = Tok.lit (.bool b)) ∨
     (∃ d, v = Value.datetime d ∧ translate v = Tok.lit (.str d)) ∨
     (∃ a, v = Value.array a ∧ translate v = Tok.group (translateArray a)) ∨
     (∃ t, v = Value.table t ∧ translate v = Tok.group (translateTable t))) := by
  cases v with
  | string s => exact ⟨Or.inl ⟨_, rfl⟩, Or.inl ⟨s, rfl, rfl⟩⟩
  | integer i => exact ⟨Or.inl ⟨_, rfl⟩, Or.inr (Or.inl ⟨i, rfl, rfl⟩)⟩
  | float f => exact ⟨Or.inl ⟨_, rfl⟩, Or.inr (Or.inr (Or.inl ⟨f, rfl, rfl⟩))⟩
  | boolean b => exact ⟨Or.inl ⟨_, rfl⟩, Or.inr (Or.inr (Or.inr (Or.inl ⟨b, rfl, rfl⟩)))⟩
  | datetime d =>
      exact ⟨Or.inl ⟨_, rfl⟩, Or.inr (Or.inr (Or.inr (Or.inr (Or.inl ⟨d, rfl, rfl⟩))))⟩
  | array a =>
      exact ⟨Or.inr ⟨_, rfl⟩,
        Or.inr (Or.inr (Or.inr (Or.inr (Or.inr (Or.inl ⟨a, rfl, rfl⟩)))))⟩
  | table t =>
      exact ⟨Or.inr ⟨_, rfl⟩,
        Or.inr (Or.inr (Or.inr (Or.inr (Or.inr (Or.inr ⟨t, rfl, rfl⟩)))))⟩

/-- Claim C5: the index-path parser maps the token stream
`"package"."version"` to exactly `[Key("package"), Key("version")]`, and
`"package"."keywords".2` to exactly
`[Key("package"), Key("keywords"), Int(2)]`, consuming the whole stream. -/
theorem parse_example_paths :
    TomlIndex.parse [InTok.litStr "package", InTok.dot, InTok.litStr "version"]
      = Except.ok ([Index.str "package", Index.str "version"], []) ∧
    TomlIndex.parse
        [InTok.litStr "package", InTok.dot, InTok.litStr "keywords",
         InTok.dot, InTok.litInt 2]
      = Except.ok ([Index.str "package", Index.str "keywords", Index.int 2], []) :=
  ⟨rfl, rfl⟩

/-- Claim C6: every navigation path the index-path parser accepts is
non-empty: whenever parsing succeeds, the step list has at least one step. -/
theorem parse_result_nonempty (toks : List InTok) (is : List Index)
    (rem : List InTok) (h : TomlIndex.parse toks = Except.ok (is, rem)) :
    is ≠ [] := by
  unfold TomlIndex.parse at h
  rw [parseSteps.eq_def] at h
  split at h <;> (try split at h) <;> (try split at h) <;> simp_all <;>
    (obtain ⟨h1, h2⟩ := h
     exact fun hE => List.cons_ne_nil _ _ (h1.trans hE))

/-- Witness for `parse_result_nonempty` at the concrete stream `"a"`. -/
theorem parse_result_nonempty_witness : ([Index.str "a"] : List Index) ≠ [] :=
  parse_result_nonempty [InTok.litStr "a"] [Index.str "a"] [] rfl

/-- Counterexample to claim C7 as stated: the stream `"a" 1.5` — a string
literal followed, with no dot, by a float literal — contains a literal of an
unsupported kind, yet the index-path parser does not fail at all: having
found no dot after `"a"`, its loop stops and it succeeds with step list
`[Key("a")]`, leaving the float literal unconsumed. -/
theorem parse_unsupported_after_stop_ok :
    TomlIndex.parse [InTok.litStr "a", InTok.litFloat]
      = Except.ok ([Index.str "a"], [InTok.litFloat]) :=
  rfl

/-- Claim C7 (amended): whenever the parser reaches a literal of an
unsupported kind (float, boolean, char, or byte-string) at a literal
position — at the start of the stream, or after a well-formed dotted chain
of items it can convert (keys, and integer indices fitting `usize`; an
overflowing integer literal aborts earlier with the fatal
`Cannot parse literal integer` panic) — it fails immediately with the
`Unsupported literal` error, whatever follows. -/
theorem parse_unsupported_lit_fails (steps : List Index) (u : InTok)
    (rest : List InTok) (hs : steps.all fitsUsize = true)
    (hu : unsupportedLit u = true) :
    TomlIndex.parse (renderChain steps ++ u :: rest)
      = Except.error ParseErr.unsupportedLiteral := by
  have hhead : parseSteps (u :: rest) = Except.error ParseErr.unsupportedLiteral := by
    cases u <;> first | rfl | simp [unsupportedLit] at hu
  exact parseSteps_chain_append steps hs _ _ hhead

/-- Witness for `parse_unsupported_lit_fails`: the stream `"a". true` fails
with the `Unsupported literal` error. -/
theorem parse_unsupported_lit_fails_witness :
    TomlIndex.parse (renderChain [Index.str "a"] ++ InTok.litBool true :: [])
      = Except.error ParseErr.unsupportedLiteral :=
  parse_unsupported_lit_fails [Index.str "a"] (InTok.litBool true) [] rfl rfl

/-- Claim C8: the index-path parser fails with the `Cannot parse index item`
error whenever a literal is required but absent: on the empty stream, on any
stream beginning with a dot, and on any stream in which a consumed separating
dot is immediately followed by another dot — the items before the double dot
being ones the parser can convert (keys, and integer indices fitting `usize`;
an overflowing integer literal instead aborts earlier with the fatal
`Cannot parse literal integer` panic). -/
theorem parse_missing_literal_fails :
    TomlIndex.parse [] = Except.error ParseErr.cannotParseIndexItem ∧
    (∀ rest : List InTok,
      TomlIndex.parse (InTok.dot :: rest) = Except.error ParseErr.cannotParseIndexItem) ∧
    (∀ (steps : List Index) (i : Index) (rest : List InTok),
      steps.all fitsUsize = true → fitsUsize i = true →
      TomlIndex.parse
          (renderChain steps ++ itemTok i :: InTok.dot :: InTok.dot :: rest)
        = Except.error ParseErr.cannotParseIndexItem) := by
  refine ⟨rfl, fun rest => rfl, fun steps i rest hs hi => ?_⟩
  have h : parseSteps (itemTok i :: InTok.dot :: InTok.dot :: rest)
      = Except.error ParseErr.cannotParseIndexItem := by
    cases i with
    | int n =>
        have hn : n ≤ usizeMax := by simpa [fitsUsize] using hi
        simp [itemTok, parseSteps, hn]
    | str s => rfl
  exact parseSteps_chain_append steps hs _ _ h

/-- Witness for `parse_missing_literal_fails`: the streams `.` and `"a"..`
fail with the `Cannot parse index item` error. -/
theorem parse_missing_literal_fails_witness :
    TomlIndex.parse [InTok.dot] = Except.error ParseErr.cannotParseIndexItem ∧
    TomlIndex.parse
        (renderChain [] ++ itemTok (Index.str "a") :: InTok.dot :: InTok.dot :: [])
      = Except.error ParseErr.cannotParseIndexItem :=
  ⟨parse_missing_literal_fails.2.1 [],
   parse_missing_literal_fails.2.2 [] (Index.str "a") [] rfl rfl⟩

/-- Claim C1: a navigation step that misses — a key step on a non-table or
with an absent key, or an integer step on a non-array or out of range —
yields the neutral/empty placeholder value, never an error, and navigation
continues from that empty value: `lookup` peels one step at a time through
the indexing operation. -/
theorem lookup_miss_is_neutral :
    (∀ (v : Value) (s : String),
      keyMiss v s = true → v.getIdx (Index.str s) = neutralValue) ∧
    (∀ (v : Value) (n : Nat),
      idxMiss v n = true → v.getIdx (Index.int n) = neutralValue) ∧
    (∀ (i : Index) (p : TomlIndex) (v : Value),
      lookup (i :: p) v = lookup p (v.getIdx i)) := by
  refine ⟨?_, ?_, ?_⟩
  · intro v s h
    cases v <;> try rfl
    case table t =>
      simp only [keyMiss, Option.isNone_iff_eq_none] at h
      simp [Value.getIdx, h]
  · intro v n h
    cases v <;> try rfl
    case array a =>
      simp only [idxMiss, decide_eq_true_eq] at h
      simp [Value.getIdx, List.getElem?_eq_none h]
  · intro i p v
    cases i <;> rfl

/-- Witness for `lookup_miss_is_neutral`: a key step on a string value, an
integer step on an empty array, and peeling one step of a path. -/
theorem lookup_miss_is_neutral_witness :
    (Value.string "x").getIdx (Index.str "nonexistent") = neutralValue ∧
    (Value.array []).getIdx (Index.int 0) = neutralValue ∧
    lookup [Index.str "k"] (Value.string "x")
      = lookup [] ((Value.string "x").getIdx (Index.str "k")) :=
  ⟨lookup_miss_is_neutral.1 (Value.string "x") "nonexistent" rfl,
   lookup_miss_is_neutral.2.1 (Value.array []) 0 rfl,
   lookup_miss_is_neutral.2.2 (Index.str "k") [] (Value.string "x")⟩

/-- Claim C9: navigation and translation are deterministic — both are pure
functions of the parsed document and the navigation path, so on equal inputs
two runs select the same value and produce the identical literal. -/
theorem pipeline_deterministic (d₁ d₂ : Value) (p₁ p₂ : TomlIndex)
    (hd : d₁ = d₂) (hp : p₁ = p₂) :
    lookup p₁ d₁ = lookup p₂ d₂ ∧
      translate (lookup p₁ d₁) = translate (lookup p₂ d₂) := by
  subst hd
  subst hp
  exact ⟨rfl, rfl⟩

/-- Witness for `pipeline_deterministic` on a concrete document and path. -/
theorem pipeline_deterministic_witness :
    lookup [Index.str "package"] (Value.table [("package", Value.string "x")])
      = lookup [Index.str "package"] (Value.table [("package", Value.string "x")]) ∧
    translate (lookup [Index.str "package"] (Value.table [("package", Value.string "x")]))
      = translate (lookup [Index.str "package"] (Value.table [("package", Value.string "x")])) :=
  pipeline_deterministic _ _ _ _ rfl rfl

/-- Claim C10: navigation composes over path concatenation —
`lookup (p ++ q) d = lookup q (lookup p d)` — and the empty path returns the
document unchanged. -/
theorem lookup_append_chain (d : Value) (p q : TomlIndex) :
    lookup (p ++ q) d = lookup q (lookup p d) ∧ lookup [] d = d := by
  constructor
  · simp [lookup, List.foldl_append]
  · rfl

end IncludeCargoToml
